import Mathlib

/-!
Verification of the RAG retrieval pipeline of the AI-Chatbot-Widget backend.

The Python modules under app/services/rag (embeddings, retrieval, chunking,
document_detector, ingestion) are shallowly embedded below.  Machine floats
are modelled exactly: special values (NaN, infinities) get an explicit
inductive representation where the code branches on them, and otherwise
real (or rational) arithmetic is used.  The external collaborators that the
code only calls through an interface (the OpenAI embedding provider, the
pgvector store executing the SQL written in retrieval.py, and the LangChain
text splitter) are modelled as explicit inputs: a sequence of provider
outcomes, a list of database rows together with the distance operator, and
the list of split strings respectively.
-/

namespace RagSpec

/-! ### Python string helpers -/

/-- Python whitespace characters (as used by str.strip and str.split). -/
def isPySpace (c : Char) : Bool :=
  c = ' ' || c = '\t' || c = '\n' || c = '\x0d' || c = '\x0b' || c = '\x0c'

/-- Python str.strip(): drop leading and trailing whitespace. -/
def pyStrip (s : List Char) : List Char :=
  ((s.dropWhile isPySpace).reverse.dropWhile isPySpace).reverse

theorem dropWhile_length_le {α : Type} (p : α → Bool) (l : List α) :
    (l.dropWhile p).length ≤ l.length := by
  induction l with
  | nil => simp [List.dropWhile]
  | cons a t ih =>
    simp only [List.dropWhile]
    cases p a <;> simp <;> omega

/-- Single-pass accumulator for pySplitWs (the word collected so far is
kept reversed). -/
def pySplitAux : List Char → List Char → List (List Char)
  | [], acc => if acc.isEmpty then [] else [acc.reverse]
  | c :: cs, acc =>
    if isPySpace c then
      if acc.isEmpty then pySplitAux cs []
      else acc.reverse :: pySplitAux cs []
    else pySplitAux cs (c :: acc)

/-- Python str.split() with no argument: maximal runs of non-whitespace,
empty pieces discarded. -/
def pySplitWs (s : List Char) : List (List Char) := pySplitAux s []

/-- Number of whitespace-separated words, Python len(s.split()). -/
def pyWordCount (s : List Char) : Nat := (pySplitWs s).length

/-- ASCII lower-casing of one character (Python str.lower on ASCII input). -/
def pyToLower (c : Char) : Char :=
  if 'A' ≤ c && c ≤ 'Z' then Char.ofNat (c.toNat + 32) else c

/-- Python str.lower over a character list (ASCII fragment). -/
def pyLower (s : List Char) : List Char := s.map pyToLower

/-- Whether pat occurs as a contiguous subsequence of s (Python "pat in s"). -/
def containsSeq {α : Type} [BEq α] (pat s : List α) : Bool :=
  match s with
  | [] => pat.isEmpty
  | _ :: rest => pat.isPrefixOf s || containsSeq pat rest

/-! ### Exact model of Python floats

Only the distinctions the embedded code branches on are represented: a
finite float carries its exact real value, and NaN / +inf / -inf are
explicit constructors.  Rounding is not modelled (finite arithmetic is
exact), which is the standard exact-arithmetic reading of the numeric
code under verification. -/

inductive PyFloat : Type
  | fin (x : ℝ) : PyFloat
  | nan : PyFloat
  | pinf : PyFloat
  | ninf : PyFloat

namespace PyFloat

/-- np.isfinite. -/
def isFinite : PyFloat → Bool
  | fin _ => true
  | _ => false

/-- IEEE-754 addition on the modelled floats (exact in the finite case). -/
noncomputable def add : PyFloat → PyFloat → PyFloat
  | fin x, fin y => fin (x + y)
  | nan, _ => nan
  | _, nan => nan
  | pinf, ninf => nan
  | ninf, pinf => nan
  | pinf, _ => pinf
  | _, pinf => pinf
  | ninf, _ => ninf
  | _, ninf => ninf

/-- IEEE-754 multiplication (exact in the finite case). -/
noncomputable def mul : PyFloat → PyFloat → PyFloat
  | fin x, fin y => fin (x * y)
  | nan, _ => nan
  | _, nan => nan
  | pinf, pinf => pinf
  | pinf, ninf => ninf
  | ninf, pinf => ninf
  | ninf, ninf => pinf
  | pinf, fin x => if x = 0 then nan else if 0 < x then pinf else ninf
  | fin x, pinf => if x = 0 then nan else if 0 < x then pinf else ninf
  | ninf, fin x => if x = 0 then nan else if 0 < x then ninf else pinf
  | fin x, ninf => if x = 0 then nan else if 0 < x then ninf else pinf

/-- IEEE-754 division (exact in the finite case; signed zero collapsed). -/
noncomputable def div : PyFloat → PyFloat → PyFloat
  | nan, _ => nan
  | _, nan => nan
  | fin x, fin y =>
    if y = 0 then (if x = 0 then nan else if 0 < x then pinf else ninf)
    else fin (x / y)
  | fin _, pinf => fin 0
  | fin _, ninf => fin 0
  | pinf, fin y => if 0 ≤ y then pinf else ninf
  | ninf, fin y => if 0 ≤ y then ninf else pinf
  | pinf, pinf => nan
  | pinf, ninf => nan
  | ninf, pinf => nan
  | ninf, ninf => nan

/-- IEEE-754 square root. -/
noncomputable def sqrt : PyFloat → PyFloat
  | fin x => if x < 0 then nan else fin (Real.sqrt x)
  | nan => nan
  | pinf => pinf
  | ninf => nan

/-- The comparison 0 < v as Python evaluates it (False on NaN). -/
noncomputable def gtZero : PyFloat → Bool
  | fin x => decide (0 < x)
  | nan => false
  | pinf => true
  | ninf => false

/-- Elementwise square. -/
noncomputable def sq (v : PyFloat) : PyFloat := mul v v

end PyFloat

/-- Sum of a float list (np.sum over the squared entries, left to right). -/
noncomputable def pySum (l : List PyFloat) : PyFloat :=
  l.foldl PyFloat.add (PyFloat.fin 0)

/-- np.linalg.norm: square root of the sum of squares. -/
noncomputable def pyNorm (l : List PyFloat) : PyFloat :=
  PyFloat.sqrt (pySum (l.map PyFloat.sq))

/-! ### EmbeddingService._normalize_embedding and post-processing -/

/-- EmbeddingService._normalize_embedding: L2-normalize when the norm is
positive, otherwise return the zero vector of the input length.  Note that
the output always has the length of the input vector. -/
noncomputable def normalizeEmbedding (e : List PyFloat) : List PyFloat :=
  let norm := pyNorm e
  if PyFloat.gtZero norm then e.map (fun x => PyFloat.div x norm)
  else List.replicate e.length (PyFloat.fin 0)

/-- Per-vector post-processing inside EmbeddingService.embed_texts: a
vector whose length differs from the configured dimensions is passed to
_normalize_embedding, and a vector that still contains a non-finite
component afterwards is replaced by the zero vector of length dims. -/
noncomputable def processEmbedding (dims : Nat) (e : List PyFloat) : List PyFloat :=
  let e1 := if e.length ≠ dims then normalizeEmbedding e else e
  if !(e1.all PyFloat.isFinite) then List.replicate dims (PyFloat.fin 0) else e1

/-! ### EmbeddingService retry policy (_embed_with_retry, _is_retryable_error)

The OpenAI provider is an external collaborator; it is modelled as a
sequence of call outcomes indexed by the provider-call number. -/

/-- An exception raised by the provider: its string form and an optional
status_code attribute. -/
structure ProviderErr where
  msg : List Char
  statusCode : Option Nat

/-- The message fragments EmbeddingService._is_retryable_error looks for. -/
def retryableMessages : List (List Char) :=
  ["rate_limit_exceeded".toList, "429".toList, "503".toList,
   "timeout".toList, "connection".toList, "network".toList]

/-- EmbeddingService._is_retryable_error: substring scan over the lowered
message first, then the status_code whitelist when the attribute exists. -/
def isRetryableError (e : ProviderErr) : Bool :=
  if retryableMessages.any (fun pat => containsSeq pat (pyLower e.msg)) then
    true
  else
    match e.statusCode with
    | some c => decide (c ∈ [429, 500, 502, 503, 504])
    | none => false

/-- self.retry_delays in EmbeddingService.__init__. -/
def retryDelays : List Nat := [1, 2, 4]

/-- Terminal failure message raised after exhausting all attempts. -/
def exhaustedMsg (maxRetries : Nat) (e : ProviderErr) : List Char :=
  "Embedding generation failed after ".toList ++ (toString maxRetries).toList
    ++ " attempts: ".toList ++ e.msg

/-- How one run of _embed_with_retry ends. -/
inductive RetryOutcome (α : Type) : Type
  | success (v : α)
  | raised (e : ProviderErr)
  | terminal (msg : List Char)
  | indexErr
  | fellThrough

/-- Observable trace of a run: the outcome, the number of provider calls
made, and the backoff delays slept (in order). -/
structure RetryTrace (α : Type) where
  out : RetryOutcome α
  calls : Nat
  sleeps : List Nat

/-- The retry loop body of _embed_with_retry: attempt counts up from 0,
the fuel argument is the number of loop iterations left.  indexErr marks
the IndexError Python would raise reading retry_delays past its end, and
fellThrough the implicit None return when the loop range is empty. -/
def retryAux {α : Type} (oc : Nat → Except ProviderErr α) (maxRetries : Nat)
    (delays : List Nat) : Nat → Nat → RetryTrace α
  | _, 0 => ⟨.fellThrough, 0, []⟩
  | attempt, fuel + 1 =>
    match oc attempt with
    | .ok v => ⟨.success v, 1, []⟩
    | .error e =>
      if isRetryableError e then
        if attempt < maxRetries - 1 then
          match delays.get? attempt with
          | some d =>
            let r := retryAux oc maxRetries delays (attempt + 1) fuel
            ⟨r.out, r.calls + 1, d :: r.sleeps⟩
          | none => ⟨.indexErr, 1, []⟩
        else ⟨.terminal (exhaustedMsg maxRetries e), 1, []⟩
      else ⟨.raised e, 1, []⟩

/-- EmbeddingService._embed_with_retry over one batch. -/
def embedWithRetry {α : Type} (oc : Nat → Except ProviderErr α)
    (maxRetries : Nat) : RetryTrace α :=
  retryAux oc maxRetries retryDelays 0 maxRetries

/-! ### EmbeddingService.embed_texts -/

/-- How a whole embed_texts call can fail. -/
inductive EmbedFail : Type
  | valueError (msg : List Char)
  | raised (e : ProviderErr)
  | terminal (msg : List Char)
  | indexCrash
  | loopFellThrough

/-- Observable trace of one embed_texts call. -/
structure EmbedTrace where
  result : Except EmbedFail (List (List PyFloat))
  calls : Nat
  sleeps : List Nat

/-- Input validation loop of embed_texts: raises ValueError at the first
empty (or whitespace-only) text, otherwise collects the stripped texts. -/
def validateAux : Nat → List (List Char) → Except (List Char) (List (List Char))
  | _, [] => .ok []
  | i, t :: ts =>
    if t.isEmpty then
      .error ("Invalid text at index ".toList ++ (toString i).toList
        ++ ": must be non-empty string".toList)
    else
      let cleaned := pyStrip t
      if cleaned.isEmpty then
        .error ("Empty text at index ".toList ++ (toString i).toList
          ++ " after cleaning".toList)
      else
        match validateAux (i + 1) ts with
        | .ok rest => .ok (cleaned :: rest)
        | .error m => .error m

/-- Fuel-driven batching loop (the fuel starts at the list length, which
suffices because each step drops at least one element). -/
def chunkListAux {α : Type} (n : Nat) : Nat → List α → List (List α)
  | _, [] => []
  | 0, _ => []
  | fuel + 1, a :: t => (a :: t).take n :: chunkListAux n fuel ((a :: t).drop n)

/-- Grouping into batches of batchSize (range(0, len, batch_size)). -/
def chunkList {α : Type} (n : Nat) (l : List α) : List (List α) :=
  if n = 0 then [] else chunkListAux n l.length l

/-- The per-batch loop of embed_texts: each batch goes through the retry
wrapper (consuming provider calls from the shared sequence), and every
returned vector is post-processed by processEmbedding. -/
noncomputable def embedBatches (dims maxRetries : Nat)
    (oc : Nat → Except ProviderErr (List (List PyFloat))) :
    Nat → List (List (List Char)) → EmbedTrace
  | _, [] => ⟨.ok [], 0, []⟩
  | base, _b :: bs =>
    let r := retryAux (fun k => oc (base + k)) maxRetries retryDelays 0 maxRetries
    match r.out with
    | .success embs =>
      let rest := embedBatches dims maxRetries oc (base + r.calls) bs
      match rest.result with
      | .ok tail =>
        ⟨.ok (embs.map (processEmbedding dims) ++ tail),
          r.calls + rest.calls, r.sleeps ++ rest.sleeps⟩
      | .error f => ⟨.error f, r.calls + rest.calls, r.sleeps ++ rest.sleeps⟩
    | .raised e => ⟨.error (.raised e), r.calls, r.sleeps⟩
    | .terminal m => ⟨.error (.terminal m), r.calls, r.sleeps⟩
    | .indexErr => ⟨.error .indexCrash, r.calls, r.sleeps⟩
    | .fellThrough => ⟨.error .loopFellThrough, r.calls, r.sleeps⟩

/-- EmbeddingService.embed_texts: early return on the empty list, input
validation, then batched embedding with retry and post-processing. -/
noncomputable def embedTexts (dims batchSize maxRetries : Nat)
    (oc : Nat → Except ProviderErr (List (List PyFloat)))
    (texts : List (List Char)) : EmbedTrace :=
  if texts.isEmpty then ⟨.ok [], 0, []⟩
  else
    match validateAux 0 texts with
    | .error m => ⟨.error (.valueError m), 0, []⟩
    | .ok valid => embedBatches dims maxRetries oc 0 (chunkList batchSize valid)

/-! ### EmbeddingService.cosine_similarity

The NumPy computation is modelled exactly over the reals: dot product of
the two vectors divided by the product of their L2 norms, 0.0 when either
norm is zero. -/

/-- np.dot on two vectors (pairwise products summed). -/
def dotList (a b : List ℝ) : ℝ := (List.zipWith (fun x y => x * y) a b).sum

/-- np.linalg.norm: the L2 norm. -/
noncomputable def normList (a : List ℝ) : ℝ := Real.sqrt (dotList a a)

open Classical in
/-- EmbeddingService.cosine_similarity. -/
noncomputable def cosine_similarity (vec1 vec2 : List ℝ) : ℝ :=
  let norm1 := normList vec1
  let norm2 := normList vec2
  if norm1 = 0 ∨ norm2 = 0 then 0
  else dotList vec1 vec2 / (norm1 * norm2)

/-! ### SimilaritySearchService

The pgvector store is the external collaborator here: the database is a
list of chunk rows and document rows, and the cosine-distance operator
appearing in the SQL is an explicit function argument.  The SQL text in
_execute_similarity_search and _enrich_with_source_info is translated
clause by clause. -/

/-- A row of app_private.document_chunks. -/
structure ChunkRow where
  id : Nat
  document_id : List Char
  tenant_id : List Char
  chunk_index : Nat
  content : List Char
  embedding : Option (List ℚ)
  source_type : List Char
  source_page_ref : Option (List Char)
  source_url : Option (List Char)
  hierarchy_path : List (List Char)
  word_count : Nat
  char_count : Nat
deriving DecidableEq

/-- A row of app_private.documents (the columns the service reads). -/
structure DocRow where
  id : List Char
  tenant_id : List Char
  title : List Char
  source_url : Option (List Char)
deriving DecidableEq

/-- The optional document_ids / source_types filters. -/
structure Filters where
  document_ids : Option (List (List Char))
  source_types : Option (List (List Char))

/-- One dictionary built from a fetched row (similarity = 1 - distance). -/
structure RChunk where
  id : Nat
  document_id : List Char
  chunk_index : Nat
  content : List Char
  source_type : List Char
  source_page_ref : Option (List Char)
  source_url : Option (List Char)
  hierarchy_path : Option (List (List Char))
  word_count : Nat
  char_count : Nat
  distance : ℚ
  similarity : ℚ
deriving DecidableEq

/-- A chunk dictionary after _enrich_with_source_info updated it. -/
structure EnrichedChunk where
  id : Nat
  document_id : List Char
  chunk_index : Nat
  content : List Char
  source_type : List Char
  source_page_ref : Option (List Char)
  source_url : Option (List Char)
  hierarchy_path : List (List Char)
  word_count : Nat
  char_count : Nat
  distance : ℚ
  similarity : ℚ
  document_title : List Char
deriving DecidableEq

/-- The AND document_id::text = ANY(:document_ids) clause; absent or empty
filter (Python truthiness) imposes no restriction. -/
def docIdCond (filters : Option Filters) (r : ChunkRow) : Bool :=
  match filters with
  | none => true
  | some f =>
    match f.document_ids with
    | none => true
    | some ids => if ids.isEmpty then true else decide (r.document_id ∈ ids)

/-- The AND source_type = ANY(:source_types) clause, same truthiness. -/
def srcTypeCond (filters : Option Filters) (r : ChunkRow) : Bool :=
  match filters with
  | none => true
  | some f =>
    match f.source_types with
    | none => true
    | some ts => if ts.isEmpty then true else decide (r.source_type ∈ ts)

/-- The full WHERE clause of the similarity-search SQL: tenant match,
non-null embedding, cosine distance strictly below match_threshold, and
the optional filters. -/
def sqlWhere (dist : List ℚ → List ℚ → ℚ) (qe : List ℚ) (dth : ℚ)
    (tenant : List Char) (filters : Option Filters) (r : ChunkRow) : Bool :=
  decide (r.tenant_id = tenant) && r.embedding.isSome &&
    decide (dist (r.embedding.getD []) qe < dth) &&
    docIdCond filters r && srcTypeCond filters r

/-- Distance of a row to the query under the store's operator. -/
def rowDist (dist : List ℚ → List ℚ → ℚ) (qe : List ℚ) (r : ChunkRow) : ℚ :=
  dist (r.embedding.getD []) qe

/-- Conversion of a fetched row to the result dictionary (the list
comprehension at the end of _execute_similarity_search); an empty
hierarchy_path array is collapsed to None by the row[7] truthiness test. -/
def toRChunk (dist : List ℚ → List ℚ → ℚ) (qe : List ℚ) (r : ChunkRow) : RChunk :=
  { id := r.id
    document_id := r.document_id
    chunk_index := r.chunk_index
    content := r.content
    source_type := r.source_type
    source_page_ref := r.source_page_ref
    source_url := r.source_url
    hierarchy_path := if r.hierarchy_path.isEmpty then none else some r.hierarchy_path
    word_count := r.word_count
    char_count := r.char_count
    distance := rowDist dist qe r
    similarity := 1 - rowDist dist qe r }

/-- SimilaritySearchService._execute_similarity_search: WHERE filter,
ORDER BY distance ascending (stable), LIMIT match_count, then the row to
dictionary conversion.  match_threshold is 1 - similarity_threshold. -/
def executeSimilaritySearch (dist : List ℚ → List ℚ → ℚ) (db : List ChunkRow)
    (tenant : List Char) (qe : List ℚ) (similarityThreshold : ℚ)
    (maxResults : Nat) (filters : Option Filters) : List RChunk :=
  let dth := 1 - similarityThreshold
  let rows := db.filter (sqlWhere dist qe dth tenant filters)
  let sorted := List.insertionSort
    (fun a b => rowDist dist qe a ≤ rowDist dist qe b) rows
  ((sorted.take maxResults).map (toRChunk dist qe))

/-- The batched parent-document lookup in _enrich_with_source_info:
WHERE id = ANY(:document_ids) AND tenant_id = :tenant_id. -/
def fetchDocumentRows (docDb : List DocRow) (ids : List (List Char))
    (tenant : List Char) : List DocRow :=
  docDb.filter (fun d => decide (d.id ∈ ids) && decide (d.tenant_id = tenant))

/-- The document_lookup dictionary: keyed by id, a later row wins. -/
def docLookup (docRows : List DocRow) (docId : List Char) : Option DocRow :=
  (docRows.filter (fun d => d.id = docId)).getLast?

/-- Python "a or b" on optional strings: an absent or empty left value
falls through to the right one. -/
def pyOrStr (a b : Option (List Char)) : Option (List Char) :=
  match a with
  | some s => if s.isEmpty then b else some s
  | none => b

/-- Enrichment of one chunk dictionary with its parent document's title
and canonical source_url (dict.get defaults when the document is absent
from the lookup). -/
def enrichChunk (docRows : List DocRow) (c : RChunk) : EnrichedChunk :=
  let docInfo := docLookup docRows c.document_id
  { id := c.id
    document_id := c.document_id
    chunk_index := c.chunk_index
    content := c.content
    source_type := c.source_type
    source_page_ref := c.source_page_ref
    source_url := pyOrStr c.source_url (match docInfo with
      | some d => d.source_url
      | none => none)
    hierarchy_path := (c.hierarchy_path.getD [])
    word_count := c.word_count
    char_count := c.char_count
    distance := c.distance
    similarity := c.similarity
    document_title := match docInfo with
      | some d => d.title
      | none => "Unknown Document".toList }

/-- SimilaritySearchService._enrich_with_source_info. -/
def enrichWithSourceInfo (docDb : List DocRow) (tenant : List Char)
    (chunks : List RChunk) : List EnrichedChunk :=
  if chunks.isEmpty then []
  else
    let ids := (chunks.map (fun c => c.document_id)).dedup
    let docRows := fetchDocumentRows docDb ids tenant
    chunks.map (enrichChunk docRows)

/-- The returned search payload (wall-clock timing not modelled). -/
structure SearchResult where
  chunks : List EnrichedChunk
  total_found : Nat
  query : List Char
  similarity_threshold : ℚ
  avg_similarity : ℚ
deriving DecidableEq

/-- SimilaritySearchService.search: embed the query (its failure, like any
exception the service raises, propagates), fetch 2 x max_results
candidates, re-filter by similarity >= threshold, truncate to max_results,
enrich, and average the surviving similarities. -/
def searchModel (dist : List ℚ → List ℚ → ℚ) (chunkDb : List ChunkRow)
    (docDb : List DocRow) (embedRes : Except EmbedFail (List ℚ))
    (tenant query : List Char) (similarityThreshold : ℚ) (maxResults : Nat)
    (filters : Option Filters) : Except EmbedFail SearchResult :=
  match embedRes with
  | .error e => .error e
  | .ok qe =>
    let results := executeSimilaritySearch dist chunkDb tenant qe
      similarityThreshold (maxResults * 2) filters
    let filtered :=
      (results.filter (fun r => decide (similarityThreshold ≤ r.similarity))).take
        maxResults
    let enriched := enrichWithSourceInfo docDb tenant filtered
    let avg := if enriched.isEmpty then 0
      else (enriched.map (fun c => c.similarity)).sum / enriched.length
    .ok { chunks := enriched
          total_found := results.length
          query := query
          similarity_threshold := similarityThreshold
          avg_similarity := avg }

/-! ### DocumentDetector

Byte strings are modelled as lists of naturals below 256.  Python's
strict UTF-8 decoder is modelled by a standard validity check (rejecting
bad leading bytes, bad continuation bytes, overlong forms, surrogates and
values beyond U+10FFFF), which is what bytes.decode("utf-8") accepts. -/

inductive DocumentType : Type
  | pdf
  | html
  | text
deriving DecidableEq

/-- ASCII upper-casing of one byte (bytes.upper). -/
def byteUpper (b : Nat) : Nat := if 97 ≤ b && b ≤ 122 then b - 32 else b

/-- ASCII lower-casing of one byte (bytes.lower). -/
def byteLower (b : Nat) : Nat := if 65 ≤ b && b ≤ 90 then b + 32 else b

/-- ASCII bytes of a literal. -/
def strBytes (s : String) : List Nat := s.toList.map Char.toNat

/-- DocumentDetector.PDF_SIGNATURE, the bytes of %PDF-. -/
def pdfSignature : List Nat := strBytes "%PDF-"

/-- DocumentDetector.HTML_SIGNATURES. -/
def htmlSignatures : List (List Nat) :=
  [strBytes "<!DOCTYPE html", strBytes "<!doctype html", strBytes "<html",
   strBytes "<!DOCTYPE HTML", strBytes "<!doctype HTML"]

/-- UTF-8 continuation byte. -/
def isContByte (b : Nat) : Bool := 128 ≤ b && b ≤ 191

/-- Strict UTF-8 validity, as bytes.decode("utf-8") requires. -/
def validUTF8 : List Nat → Bool
  | [] => true
  | b :: r =>
    if b ≤ 0x7F then validUTF8 r
    else if 0xC2 ≤ b && b ≤ 0xDF then
      match r with
      | c1 :: r2 => isContByte c1 && validUTF8 r2
      | [] => false
    else if b = 0xE0 then
      match r with
      | c1 :: c2 :: r2 =>
        (0xA0 ≤ c1 && c1 ≤ 0xBF) && isContByte c2 && validUTF8 r2
      | _ => false
    else if (0xE1 ≤ b && b ≤ 0xEC) || b = 0xEE || b = 0xEF then
      match r with
      | c1 :: c2 :: r2 => isContByte c1 && isContByte c2 && validUTF8 r2
      | _ => false
    else if b = 0xED then
      match r with
      | c1 :: c2 :: r2 =>
        (0x80 ≤ c1 && c1 ≤ 0x9F) && isContByte c2 && validUTF8 r2
      | _ => false
    else if b = 0xF0 then
      match r with
      | c1 :: c2 :: c3 :: r2 =>
        (0x90 ≤ c1 && c1 ≤ 0xBF) && isContByte c2 && isContByte c3 && validUTF8 r2
      | _ => false
    else if 0xF1 ≤ b && b ≤ 0xF3 then
      match r with
      | c1 :: c2 :: c3 :: r2 =>
        isContByte c1 && isContByte c2 && isContByte c3 && validUTF8 r2
      | _ => false
    else if b = 0xF4 then
      match r with
      | c1 :: c2 :: c3 :: r2 =>
        (0x80 ≤ c1 && c1 ≤ 0x8F) && isContByte c2 && isContByte c3 && validUTF8 r2
      | _ => false
    else false

/-- DocumentDetector._detect_from_magic_number. -/
def detectFromMagicNumber (content : List Nat) : DocumentType × ℚ :=
  if content.length < 10 then (.text, 3/10)
  else if pdfSignature.isPrefixOf content then (.pdf, 19/20)
  else if htmlSignatures.any (fun sig =>
      (content.take sig.length).map byteUpper == sig.map byteUpper) then
    (.html, 19/20)
  else if validUTF8 content then
    if containsSeq (strBytes "<html") (content.map byteLower) ||
        containsSeq (strBytes "<body") (content.map byteLower) then
      (.html, 7/10)
    else (.text, 3/5)
  else (.text, 1/5)

/-- DocumentDetector._detect_from_mime_type. -/
def detectFromMimeType (m : List Char) : DocumentType × ℚ :=
  if m.isEmpty then (.text, 0)
  else
    let mt := pyStrip (pyLower m)
    if containsSeq "pdf".toList mt then (.pdf, 9/10)
    else if ["html".toList, "xhtml".toList, "htm".toList].any
        (fun ht => containsSeq ht mt) then (.html, 9/10)
    else if "text/".toList.isPrefixOf mt && !containsSeq "html".toList mt then
      (.text, 9/10)
    else if containsSeq "application".toList mt then
      if containsSeq "json".toList mt || containsSeq "xml".toList mt then
        (.text, 7/10)
      else if containsSeq "javascript".toList mt ||
          containsSeq "typescript".toList mt then (.text, 3/5)
      else (.text, 3/10)
    else (.text, 3/10)

/-- The curated extension sets of _detect_from_extension. -/
def pdfExtensions : List (List Char) := ["pdf".toList, "pdfa".toList]

def htmlExtensions : List (List Char) :=
  ["html".toList, "htm".toList, "xhtml".toList, "xhtm".toList]

def textExtensions : List (List Char) :=
  ["txt", "md", "markdown", "rst", "text", "log", "json", "xml", "yaml",
   "yml", "csv", "tsv", "js", "ts", "py", "java", "c", "cpp", "h", "css",
   "scss", "less", "sql", "sh", "bash"].map String.toList

/-- DocumentDetector._detect_from_extension. -/
def detectFromExtension (extension : List Char) : DocumentType × ℚ :=
  if extension.isEmpty then (.text, 0)
  else
    let e := (pyStrip (pyLower extension)).dropWhile (fun c => c = '.')
    if decide (e ∈ pdfExtensions) then (.pdf, 7/10)
    else if decide (e ∈ htmlExtensions) then (.html, 7/10)
    else if decide (e ∈ textExtensions) then (.text, 7/10)
    else (.text, 2/5)

/-- The regex \s* then $ tail test used by the horizontal-rule pattern
(in MULTILINE mode $ also matches just before a newline). -/
def wsThenLineEnd : List Char → Bool
  | [] => true
  | c :: r => if c = '\n' then true else if isPySpace c then wsThenLineEnd r else false

/-- One MULTILINE markdown pattern alternative matching at a line start:
headings, horizontal rule, bullet, or numbered list. -/
def mdLineMatch (l : List Char) : Bool :=
  (match l with
   | '#' :: c :: _ => isPySpace c
   | _ => false) ||
  (match l with
   | '#' :: '#' :: c :: _ => isPySpace c
   | _ => false) ||
  (match l with
   | '#' :: '#' :: '#' :: c :: _ => isPySpace c
   | _ => false) ||
  (3 ≤ (l.takeWhile (fun c => c = '-')).length &&
    wsThenLineEnd (l.dropWhile (fun c => c = '-'))) ||
  (match l with
   | '*' :: c :: _ => isPySpace c
   | _ => false) ||
  (let ds := l.takeWhile Char.isDigit
   !ds.isEmpty &&
     (match l.drop ds.length with
      | '.' :: c :: _ => isPySpace c
      | _ => false))

/-- The suffixes of s that start right after a newline (the MULTILINE
line starts other than position 0). -/
def tailsAfterNewline : List Char → List (List Char)
  | [] => []
  | c :: r => if c = '\n' then r :: tailsAfterNewline r else tailsAfterNewline r

/-- Whether any markdown pattern of _detect_from_content matches. -/
def mdPatternMatch (content : List Char) : Bool :=
  mdLineMatch content || (tailsAfterNewline content).any mdLineMatch

/-- Whether any anchored HTML pattern of _detect_from_content matches
(the ^\s* skip, then one of the case-insensitive alternatives). -/
def htmlPatternMatch (content : List Char) : Bool :=
  let ls := pyLower (content.dropWhile isPySpace)
  ("<!doctype".toList.isPrefixOf ls &&
    (match ls.drop 9 with
     | c :: _ => isPySpace c && "html".toList.isPrefixOf ((ls.drop 9).dropWhile isPySpace)
     | [] => false)) ||
  "<html".toList.isPrefixOf ls || "<body".toList.isPrefixOf ls ||
  "<head".toList.isPrefixOf ls || "<div".toList.isPrefixOf ls ||
  "<span".toList.isPrefixOf ls || "<p>".toList.isPrefixOf ls ||
  (match ls with
   | '<' :: 'h' :: d :: '>' :: _ => '1' ≤ d && d ≤ '6'
   | _ => false)

/-- DocumentDetector._detect_from_content. -/
def detectFromContent (content : List Char) : DocumentType × ℚ :=
  if content.isEmpty then (.text, 3/10)
  else if htmlPatternMatch content then (.html, 3/5)
  else if mdPatternMatch content then (.text, 7/10)
  else (.text, 1/2)

/-- A detect_type source argument: raw bytes or a string. -/
inductive SourceInput : Type
  | bytes (b : List Nat)
  | str (s : List Char)

/-- Tier 1 of detect_type: magic numbers, kept only when the confidence
clears the 0.95 floor. -/
def tierMagic (source : SourceInput) : Option (DocumentType × ℚ) :=
  match source with
  | .bytes b =>
    let r := detectFromMagicNumber b
    if 19/20 ≤ r.2 then some r else none
  | .str _ => none

/-- Tier 2: declared MIME type (skipped when absent or empty), kept only
when the confidence clears the 0.90 floor. -/
def tierMime (mimeType : Option (List Char)) : Option (DocumentType × ℚ) :=
  match mimeType with
  | some m =>
    if m.isEmpty then none
    else
      let r := detectFromMimeType m
      if 9/10 ≤ r.2 then some r else none
  | none => none

/-- Tier 3: file extension, floor 0.70. -/
def tierExtension (fileExtension : Option (List Char)) : Option (DocumentType × ℚ) :=
  match fileExtension with
  | some e =>
    if e.isEmpty then none
    else
      let r := detectFromExtension e
      if 7/10 ≤ r.2 then some r else none
  | none => none

/-- Tier 4: content analysis for string sources, floor 0.60. -/
def tierContent (source : SourceInput) : Option (DocumentType × ℚ) :=
  match source with
  | .str s =>
    let r := detectFromContent s
    if 3/5 ≤ r.2 then some r else none
  | .bytes _ => none

/-- DocumentDetector.detect_type: the four tiers in priority order, then
the (text, 0.50) fallback. -/
def detect_type (source : SourceInput) (mimeType fileExtension : Option (List Char)) :
    DocumentType × ℚ :=
  match tierMagic source with
  | some r => r
  | none =>
    match tierMime mimeType with
    | some r => r
    | none =>
      match tierExtension fileExtension with
      | some r => r
      | none =>
        match tierContent source with
        | some r => r
        | none => (.text, 1/2)

/-! ### ChunkingEngine

The LangChain RecursiveCharacterTextSplitter is an external library; the
enrichment loops of chunk_pdf / chunk_html / chunk_text are modelled over
an arbitrary split output (the list of chunk contents the splitter
produced, in order). -/

/-- \w of the table-detection regexes (ASCII fragment). -/
def isWordChar (c : Char) : Bool := c.isAlphanum || c = '_'

/-- Occurrence of the pattern pipe, optional whitespace, word character. -/
def scanPipeWord : List Char → Bool
  | [] => false
  | c :: r =>
    (if c = '|' then
      match r.dropWhile isPySpace with
      | d :: _ => isWordChar d
      | [] => false
    else false) || scanPipeWord r

/-- Occurrence of two-or-more whitespace characters then a word character. -/
def scanMultiSpaceWord : List Char → Bool
  | c1 :: c2 :: r =>
    (if isPySpace c1 && isPySpace c2 then
      match (c2 :: r).dropWhile isPySpace with
      | d :: _ => isWordChar d
      | [] => false
    else false) || scanMultiSpaceWord (c2 :: r)
  | _ => false

/-- Python str.split(sep) for a single-character separator (keeps empty
pieces, so the piece count is one more than the separator count). -/
def splitOnChar (sep : Char) : List Char → List (List Char)
  | [] => [[]]
  | c :: r =>
    if c = sep then [] :: splitOnChar sep r
    else
      match splitOnChar sep r with
      | h :: t => (c :: h) :: t
      | [] => [[c]]

/-- ChunkingEngine._detect_table: one of the three table patterns occurs,
the content spans more than one line, and is under 2000 characters. -/
def detectTable (content : List Char) : Bool :=
  (content.contains '\t' || scanPipeWord content || scanMultiSpaceWord content) &&
    decide (1 < (splitOnChar '\n' content).length) && decide (content.length < 2000)

/-- The PDF document metadata fields the chunker reads. -/
structure PdfMeta where
  page_number : Int
  headings : List (List Char)
  sectionTag : Option (List Char)
  chapterTag : Option (List Char)

/-- ChunkingEngine._extract_hierarchy_path: headings in order, section
inserted in front, then chapter inserted in front of that. -/
def extractHierarchyPath (m : PdfMeta) : List (List Char) :=
  let h1 := m.headings
  let h2 := match m.sectionTag with
    | some s => s :: h1
    | none => h1
  match m.chapterTag with
  | some c => c :: h2
  | none => h2

/-- A chunk produced by chunk_pdf, with its enrichment metadata. -/
structure PdfChunk where
  content : List Char
  is_table : Bool
  hierarchy_path : List (List Char)
  source_page_ref : List Char
  source_type : List Char
  chunk_index : Nat
  total_chunks : Nat
  word_count : Nat
  char_count : Nat
deriving DecidableEq

/-- ChunkingEngine.chunk_pdf over the splitter output: per-index
enrichment; the content itself is not modified. -/
def chunkPdf (meta : PdfMeta) (splits : List (List Char)) : List PdfChunk :=
  splits.enum.map fun p =>
    { content := p.2
      is_table := detectTable p.2
      hierarchy_path := extractHierarchyPath meta
      source_page_ref := (toString (meta.page_number + 1)).toList
      source_type := "pdf".toList
      chunk_index := p.1
      total_chunks := splits.length
      word_count := pyWordCount p.2
      char_count := p.2.length }

/-- Tag removal of _clean_html_content: each maximal <...> group with a
non-empty body up to the first closing angle bracket is dropped. -/
def removeTags : List Char → List Char
  | [] => []
  | c :: r =>
    if c = '<' then
      match h : r.dropWhile (fun d => d ≠ '>') with
      | d :: tail =>
        if (r.takeWhile (fun d => d ≠ '>')).isEmpty then c :: removeTags r
        else removeTags tail
      | [] => c :: removeTags r
    else c :: removeTags r
termination_by l => l.length
decreasing_by
  · simp
  · have h2 := dropWhile_length_le (fun d => d ≠ '>') r
    rw [h] at h2
    simp at h2 ⊢
    omega
  · simp
  · simp

/-- Whitespace-run collapsing of _clean_html_content. -/
def collapseWs : List Char → List Char
  | [] => []
  | c :: r =>
    if isPySpace c then ' ' :: collapseWs (r.dropWhile isPySpace)
    else c :: collapseWs r
termination_by l => l.length
decreasing_by
  · have h2 := dropWhile_length_le isPySpace r
    simp
    omega
  · simp

/-- ChunkingEngine._clean_html_content: strip tags, collapse whitespace,
then strip the ends. -/
def cleanHtmlContent (s : List Char) : List Char :=
  pyStrip (collapseWs (removeTags s))

/-- A chunk produced by chunk_html, with its enrichment metadata. -/
structure HtmlChunk where
  content : List Char
  hierarchy_path : List (List Char)
  source_type : List Char
  source_url : List Char
  chunk_index : Nat
  total_chunks : Nat
  title : List Char
  description : List Char
  word_count : Nat
  char_count : Nat
deriving DecidableEq

/-- ChunkingEngine.chunk_html over the splitter output: the chunk content
is cleaned, and the counts are taken on the cleaned content. -/
def chunkHtml (title description sourceUrl : List Char)
    (domPath : List (List Char)) (splits : List (List Char)) : List HtmlChunk :=
  splits.enum.map fun p =>
    let cleaned := cleanHtmlContent p.2
    { content := cleaned
      hierarchy_path := domPath
      source_type := "html".toList
      source_url := sourceUrl
      chunk_index := p.1
      total_chunks := splits.length
      title := title
      description := description
      word_count := pyWordCount cleaned
      char_count := cleaned.length }

/-- ChunkingEngine._has_mid_sentence_split: the stripped content starts
with a lower-case letter (and then splits into at least one word, which
is automatic for non-empty stripped content). -/
def hasMidSentenceSplit (content : List Char) : Bool :=
  match pyStrip content with
  | c :: rest => c.isLower && !(pySplitWs (c :: rest)).isEmpty
  | [] => false

/-- The sentence_endings list of _ensure_sentence_boundary. -/
def sentenceEndings : List (List Char) :=
  [". ", "! ", "? ", ".\n", "!\n", "?\n"].map String.toList

/-- Python str.rfind: start index of the last occurrence of pat. -/
def rfindAux (pat : List Char) : List Char → Option Nat
  | [] => if pat.isEmpty then some 0 else none
  | c :: rest =>
    match rfindAux pat rest with
    | some i => some (i + 1)
    | none => if pat.isPrefixOf (c :: rest) then some 0 else none

/-- ChunkingEngine._ensure_sentence_boundary: cut at the last occurrence
of the first ending (in list order) that is found strictly inside the
content; otherwise append a period unless one of .!? already ends it. -/
def ensureSentenceBoundary (content : List Char) : List Char :=
  match sentenceEndings.findSome? (fun ending =>
    match rfindAux ending content with
    | some idx =>
      if idx + ending.length < content.length then some (content.take (idx + 1))
      else none
    | none => none) with
  | some r => r
  | none =>
    match content.getLast? with
    | some c => if c = '.' || c = '!' || c = '?' then content else content ++ ['.']
    | none => content

/-- A chunk produced by chunk_text, with its enrichment metadata. -/
structure TxtChunk where
  content : List Char
  source_type : List Char
  chunk_index : Nat
  total_chunks : Nat
  word_count : Nat
  char_count : Nat
deriving DecidableEq

/-- ChunkingEngine.chunk_text over the splitter output: a chunk whose
content appears to start mid-sentence and that is not the last chunk has
its content extended with the next chunk's text and truncated back to a
sentence boundary, but word_count and char_count are computed from the
variable holding the content from before that repair. -/
def chunkTextModel (splits : List (List Char)) : List TxtChunk :=
  (List.range splits.length).map fun idx =>
    let content := splits.getD idx []
    let finalContent :=
      if hasMidSentenceSplit content && decide (idx < splits.length - 1) then
        ensureSentenceBoundary (content ++ [' '] ++ splits.getD (idx + 1) [])
      else content
    { content := finalContent
      source_type := "text".toList
      chunk_index := idx
      total_chunks := splits.length
      word_count := pyWordCount content
      char_count := content.length }

/-! ### IngestionPipeline._store_chunks

The method builds one chunk model per (chunk, embedding) pair, with
chunk_index from the enumeration position and a freshly generated row id,
and hands them to the storage layer.  The database insert itself is left
as a stub in the source, so the write is modelled from the spec below. -/

/-- A document_chunks row assembled by _store_chunks (the fields relevant
to identity and idempotence; the generated uuid4 is modelled by an
injected id supply). -/
structure StoredChunk where
  id : Nat
  document_id : List Char
  tenant_id : List Char
  chunk_index : Nat
  content : List Char
  embedding : List ℚ
deriving DecidableEq

/-- The model-building loop of _store_chunks: chunk_index is the
enumeration index, the row id comes from the id supply. -/
def prepareChunks (idGen : Nat → Nat) (documentId tenantId : List Char)
    (cs : List (List Char × List ℚ)) : List StoredChunk :=
  cs.enum.map fun p => ⟨idGen p.1, documentId, tenantId, p.1, p.2.1, p.2.2⟩

/-- Modelled from the spec: the batch insert at the end of _store_chunks
is stubbed in the source (it only logs), so the storage write is modelled
from the spec clause that chunk writes use identity keyed on
(document_id, chunk_index) or equivalent upsert semantics: a row whose
key already exists is replaced, otherwise it is appended. -/
def upsertChunk (store : List StoredChunk) (c : StoredChunk) : List StoredChunk :=
  if store.any (fun r =>
      decide (r.document_id = c.document_id) && decide (r.chunk_index = c.chunk_index)) then
    store.map fun r =>
      if r.document_id = c.document_id ∧ r.chunk_index = c.chunk_index then c else r
  else store ++ [c]

/-- One run of _store_chunks against the modelled store. -/
def storeChunks (store : List StoredChunk) (idGen : Nat → Nat)
    (documentId tenantId : List Char) (cs : List (List Char × List ℚ)) :
    List StoredChunk :=
  (prepareChunks idGen documentId tenantId cs).foldl upsertChunk store

/-! ## Theorems -/

/-! ### C1: tenant isolation of search and enrichment -/

/-- Claim C1: every chunk row satisfying the similarity-search WHERE clause
carries the searching tenant's tenant_id, every parent-document row fetched
by the enrichment lookup carries it as well (whatever document_id list is
injected), and every dictionary returned by _execute_similarity_search
comes from a chunk row of that tenant. -/
theorem tenant_isolation :
    ∀ (dist : List ℚ → List ℚ → ℚ) (chunkDb : List ChunkRow)
      (docDb : List DocRow) (tenant : List Char) (qe : List ℚ) (thr : ℚ)
      (k : Nat) (filters : Option Filters) (ids : List (List Char)),
    (∀ r ∈ chunkDb, sqlWhere dist qe (1 - thr) tenant filters r = true →
      r.tenant_id = tenant) ∧
    (∀ d ∈ fetchDocumentRows docDb ids tenant, d.tenant_id = tenant) ∧
    (∀ c ∈ executeSimilaritySearch dist chunkDb tenant qe thr k filters,
      ∃ r, r ∈ chunkDb ∧ r.tenant_id = tenant ∧ toRChunk dist qe r = c) := by
  intro dist chunkDb docDb tenant qe thr k filters ids
  refine ⟨?_, ?_, ?_⟩
  · intro r _hr hw
    simp only [sqlWhere, Bool.and_eq_true, decide_eq_true_eq] at hw
    exact hw.1.1.1.1
  · intro d hd
    simp only [fetchDocumentRows, List.mem_filter, Bool.and_eq_true,
      decide_eq_true_eq] at hd
    exact hd.2.2
  · intro c hc
    simp only [executeSimilaritySearch, List.mem_map] at hc
    obtain ⟨r, hr, hrc⟩ := hc
    have hr2 : r ∈ List.insertionSort
        (fun a b => rowDist dist qe a ≤ rowDist dist qe b)
        (chunkDb.filter (sqlWhere dist qe (1 - thr) tenant filters)) :=
      List.take_subset _ _ hr
    have hr3 : r ∈ chunkDb.filter (sqlWhere dist qe (1 - thr) tenant filters) :=
      (List.perm_insertionSort _ _).mem_iff.mp hr2
    have hr4 := List.mem_filter.mp hr3
    have hten : r.tenant_id = tenant := by
      have hw := hr4.2
      simp only [sqlWhere, Bool.and_eq_true, decide_eq_true_eq] at hw
      exact hw.1.1.1.1
    exact ⟨r, hr4.1, hten, hrc⟩

/-- Concrete document row for the C1 witness. -/
def c1DocRow : DocRow :=
  { id := "d1".toList, tenant_id := "A".toList, title := "T".toList,
    source_url := none }

/-- Witness for C1 at a concrete store: the enrichment lookup for tenant A
returns the tenant-A document row, whose tenant_id the theorem then pins
to A. -/
theorem tenant_isolation_witness :
    c1DocRow ∈ fetchDocumentRows [c1DocRow] ["d1".toList] "A".toList ∧
      c1DocRow.tenant_id = "A".toList :=
  ⟨by decide,
    (tenant_isolation (fun _ _ => 0) [] [c1DocRow] "A".toList [] (7/10) 5
      none ["d1".toList]).2.1 c1DocRow (by decide)⟩

/-! ### C2: threshold boundary semantics -/

/-- The distance operator used by the concrete C2 store: the single stored
embedding is at cosine distance 0 from every query, i.e. similarity 1. -/
def c2Dist : List ℚ → List ℚ → ℚ := fun _ _ => 0

/-- The single stored chunk row of the C2 scenario. -/
def c2Row : ChunkRow :=
  { id := 1, document_id := "d1".toList, tenant_id := "A".toList,
    chunk_index := 0, content := "c".toList, embedding := some [1],
    source_type := "text".toList, source_page_ref := none, source_url := none,
    hierarchy_path := [], word_count := 1, char_count := 1 }

/-- Claim C2, evaluated at the failing input: the stored chunk has
similarity exactly 1 (distance 0), yet a search with threshold 1 returns
zero chunks, because the SQL WHERE clause demands distance strictly below
1 - threshold.  The claim (and the unit test of the Python layer) expect
the perfect match to be returned. -/
theorem search_threshold_boundary_bug :
    1 - rowDist c2Dist [1] c2Row = 1 ∧
    searchModel c2Dist [c2Row] [] (.ok [1]) "A".toList "q".toList 1 5 none =
      .ok { chunks := [], total_found := 0, query := "q".toList,
            similarity_threshold := 1, avg_similarity := 0 } := by
  constructor
  · norm_num [rowDist, c2Dist]
  · have hw : sqlWhere c2Dist [1] (1 - 1) "A".toList none c2Row = false := by
      simp only [sqlWhere, c2Dist, c2Row]
      norm_num
    simp [searchModel, executeSimilaritySearch, hw, enrichWithSourceInfo,
      List.insertionSort]

/-! ### C3: embedding failure propagates out of search -/

/-- Concrete failing embedding outcome for the C3 counterexample. -/
def c3Fail : EmbedFail := .raised { msg := "timeout".toList, statusCode := none }

/-- Counterexample to claim C3: when the query embedding fails, search
does not return an empty result set; the failure propagates unchanged to
the caller (concrete store, concrete error). -/
theorem search_embed_failure_not_swallowed :
    searchModel c2Dist [] [] (.error c3Fail) "A".toList "q".toList (7/10) 5
      none = .error c3Fail := by
  rfl

/-- Claim C3 as amended: a failure of the query-embedding step propagates
out of search unchanged, for every store, tenant and parameter choice - the
service has no handler that degrades it to an empty result. -/
theorem search_embed_failure_propagates :
    ∀ (dist : List ℚ → List ℚ → ℚ) (chunkDb : List ChunkRow)
      (docDb : List DocRow) (f : EmbedFail) (tenant query : List Char)
      (thr : ℚ) (k : Nat) (filters : Option Filters),
    searchModel dist chunkDb docDb (.error f) tenant query thr k filters =
      .error f := by
  intro dist chunkDb docDb f tenant query thr k filters
  rfl

/-! ### C10: chunks with a missing parent document are kept and defaulted -/

/-- Claim C10: a chunk whose document_id has no row under the searching
tenant still produces an enriched entry (nothing is dropped); its
document_title defaults to "Unknown Document", its source_url is the
chunk's own stored value under Python or-semantics with nothing to fall
back to, and its hierarchy_path is its own value defaulted to []. -/
theorem enrich_missing_document_defaults :
    ∀ (docDb : List DocRow) (tenant : List Char) (cs : List RChunk)
      (c : RChunk), c ∈ cs →
    (∀ d ∈ docDb, ¬(d.id = c.document_id ∧ d.tenant_id = tenant)) →
    ∃ e ∈ enrichWithSourceInfo docDb tenant cs,
      e.id = c.id ∧ e.document_id = c.document_id ∧ e.content = c.content ∧
      e.similarity = c.similarity ∧
      e.document_title = "Unknown Document".toList ∧
      e.source_url = pyOrStr c.source_url none ∧
      e.hierarchy_path = c.hierarchy_path.getD [] := by
  intro docDb tenant cs c hc hnone
  have hne : cs.isEmpty = false := by
    cases cs with
    | nil => simp at hc
    | cons a t => rfl
  have hlict : docLookup
      (fetchDocumentRows docDb ((cs.map (fun x => x.document_id)).dedup) tenant)
      c.document_id = none := by
    have hfil : (fetchDocumentRows docDb
        ((cs.map (fun x => x.document_id)).dedup) tenant).filter
        (fun d => d.id = c.document_id) = [] := by
      rw [List.filter_eq_nil]
      intro d hd
      simp only [fetchDocumentRows, List.mem_filter, Bool.and_eq_true,
        decide_eq_true_eq] at hd
      intro hid
      simp only [decide_eq_true_eq] at hid
      exact hnone d hd.1 ⟨hid, hd.2.2⟩
    simp [docLookup, hfil]
  refine ⟨enrichChunk
    (fetchDocumentRows docDb ((cs.map (fun x => x.document_id)).dedup) tenant)
    c, ?_, ?_⟩
  · simp only [enrichWithSourceInfo, hne, Bool.false_eq_true, if_false]
    exact List.mem_map_of_mem _ hc
  · simp [enrichChunk, hlict]

/-- Concrete chunk dictionary for the C10 witness. -/
def c10Chunk : RChunk :=
  { id := 7, document_id := "dX".toList, chunk_index := 2,
    content := "hello".toList, source_type := "text".toList,
    source_page_ref := none, source_url := some "u".toList,
    hierarchy_path := none, word_count := 1, char_count := 5,
    distance := 0, similarity := 1 }

/-- Witness for C10: against an empty document table, the enriched entry
for the concrete chunk exists with the defaulted title, its own
source_url, and an empty hierarchy. -/
theorem enrich_missing_document_defaults_witness :
    c10Chunk ∈ [c10Chunk] ∧
    ∃ e ∈ enrichWithSourceInfo [] "A".toList [c10Chunk],
      e.id = c10Chunk.id ∧ e.document_id = c10Chunk.document_id ∧
      e.content = c10Chunk.content ∧ e.similarity = c10Chunk.similarity ∧
      e.document_title = "Unknown Document".toList ∧
      e.source_url = pyOrStr c10Chunk.source_url none ∧
      e.hierarchy_path = c10Chunk.hierarchy_path.getD [] :=
  ⟨List.mem_singleton_self c10Chunk,
    enrich_missing_document_defaults [] "A".toList [c10Chunk] c10Chunk
      (List.mem_singleton_self c10Chunk) (by intro d hd; simp at hd)⟩

/-! ### C7: detection tiers and the binary-content fallback -/

/-- Ten bytes that are not valid UTF-8 and match no signature. -/
def c7BadBytes : List Nat := List.replicate 10 255

/-- Counterexample to claim C7: for undecodable bytes with no signature
and no MIME/extension hints, detect_type returns (text, 0.50) - the
magic-number tier's internal (text, 0.20) verdict does not clear the 0.95
floor, so the final fallback answers - not (text, 0.20) as claimed. -/
theorem detect_type_binary_fallback_value :
    detect_type (.bytes c7BadBytes) none none = (DocumentType.text, 1/2) ∧
      ¬ detect_type (.bytes c7BadBytes) none none = (DocumentType.text, 1/5) := by
  have h : detect_type (.bytes c7BadBytes) none none = (DocumentType.text, 1/2) := by
    have hpdf : pdfSignature.isPrefixOf c7BadBytes = false := by decide
    have hany : htmlSignatures.any (fun sig =>
        (c7BadBytes.take sig.length).map byteUpper == sig.map byteUpper) = false := by
      decide
    have hdec : validUTF8 c7BadBytes = false := by decide
    have hlen : ¬ c7BadBytes.length < 10 := by decide
    simp only [detect_type, tierMagic, detectFromMagicNumber, hlen, if_false,
      hpdf, Bool.false_eq_true, hany, hdec]
    norm_num [tierMime, tierExtension, tierContent]
  refine ⟨h, ?_⟩
  rw [h]
  intro hc
  have : (1/2 : ℚ) = 1/5 := congrArg Prod.snd hc
  norm_num at this

/-- Claim C7 as amended: the tiers run in priority order with the stated
floors - in particular a recognized PDF signature decides the call at
confidence 0.95 regardless of any MIME/extension hints - and a bytes
input that fails UTF-8 decoding with no recognized signature (and no
hints) falls through every tier to the final (text, 0.50) fallback,
the magic tier's low-confidence internal verdict being discarded. -/
theorem detect_type_tiering :
    (∀ (bs : List Nat) (mt fe : Option (List Char)),
      pdfSignature.isPrefixOf bs = true → 10 ≤ bs.length →
      detect_type (.bytes bs) mt fe = (DocumentType.pdf, 19/20)) ∧
    (∀ bs : List Nat,
      pdfSignature.isPrefixOf bs = false →
      (∀ sig ∈ htmlSignatures,
        ((bs.take sig.length).map byteUpper == sig.map byteUpper) = false) →
      validUTF8 bs = false →
      detect_type (.bytes bs) none none = (DocumentType.text, 1/2)) := by
  constructor
  · intro bs mt fe hpdf hlen
    have hnl : ¬ bs.length < 10 := by omega
    simp only [detect_type, tierMagic, detectFromMagicNumber, hnl, if_false,
      hpdf, if_true]
    norm_num
  · intro bs hpdf hsig hdec
    have hany : htmlSignatures.any (fun sig =>
        (bs.take sig.length).map byteUpper == sig.map byteUpper) = false := by
      rw [List.any_eq_false]
      intro sig hs
      simp only [hsig sig hs, Bool.false_eq_true, not_false_eq_true]
    by_cases hlen : bs.length < 10
    · simp only [detect_type, tierMagic, detectFromMagicNumber, hlen, if_true]
      norm_num [tierMime, tierExtension, tierContent]
    · simp only [detect_type, tierMagic, detectFromMagicNumber, hlen, if_false,
        hpdf, Bool.false_eq_true, hany, hdec]
      norm_num [tierMime, tierExtension, tierContent]

/-- Bytes of a PDF header for the C7 witness. -/
def c7PdfBytes : List Nat := strBytes "%PDF-1.4xx"

/-- Witness for C7: the PDF magic number wins over a contradicting
text/html MIME hint and an html extension hint. -/
theorem detect_type_tiering_witness :
    pdfSignature.isPrefixOf c7PdfBytes = true ∧
    detect_type (.bytes c7PdfBytes) (some "text/html".toList)
      (some "html".toList) = (DocumentType.pdf, 19/20) :=
  ⟨by decide,
    detect_type_tiering.1 c7PdfBytes (some "text/html".toList)
      (some "html".toList) (by decide) (by decide)⟩

/-! ### C5: embedding post-processing does not repair the length -/

/-- Claim C5, evaluated at the failing input: with the default 512
dimensions, a finite provider vector of the wrong length (here the
all-ones vector of length 2) is L2-normalized by _normalize_embedding but
keeps its length - embed_texts hands on a 2-component vector, not a
512-component one, although the in-code comment says pad or truncate and
the unit test asserts the 512 length. -/
theorem process_embedding_keeps_wrong_length :
    (processEmbedding 512 [PyFloat.fin 1, PyFloat.fin 1]).length = 2 ∧
      ¬ (processEmbedding 512 [PyFloat.fin 1, PyFloat.fin 1]).length = 512 := by
  have hs : (0 : ℝ) < Real.sqrt 2 := Real.sqrt_pos.mpr (by norm_num)
  have hlen : (processEmbedding 512 [PyFloat.fin 1, PyFloat.fin 1]).length = 2 := by
    simp only [processEmbedding, normalizeEmbedding, pyNorm, pySum,
      List.map_cons, List.map_nil, PyFloat.sq, PyFloat.mul, List.foldl_cons,
      List.foldl_nil, PyFloat.add, PyFloat.sqrt, PyFloat.gtZero]
    norm_num [PyFloat.div, PyFloat.isFinite, hs]
  exact ⟨hlen, by omega⟩

/-! ### C4: retry classification, backoff schedule, and exhaustion -/

theorem isPrefixOf_append_right {α : Type} [BEq α] (p l m : List α)
    (h : p.isPrefixOf l = true) : p.isPrefixOf (l ++ m) = true := by
  induction p generalizing l with
  | nil => simp
  | cons a t ih =>
    cases l with
    | nil => simp [List.isPrefixOf] at h
    | cons b r =>
      rw [List.cons_append]
      simp only [List.isPrefixOf, Bool.and_eq_true] at h ⊢
      exact ⟨h.1, ih r h.2⟩

theorem containsSeq_append_left {α : Type} [BEq α] (pat s m : List α)
    (h : containsSeq pat s = true) : containsSeq pat (s ++ m) = true := by
  induction s with
  | nil =>
    simp only [containsSeq, List.isEmpty_iff] at h
    subst h
    cases m with
    | nil => rfl
    | cons b mr => simp [containsSeq]
  | cons a r ih =>
    simp only [containsSeq, List.cons_append, Bool.or_eq_true] at h ⊢
    rcases h with h | h
    · exact Or.inl (by simpa using isPrefixOf_append_right _ (a :: r) m h)
    · exact Or.inr (ih h)

/-- Claim C4: with the default max_retries = 3 and the delay schedule
[1s, 2s, 4s]: a non-retryable error propagates immediately (after the
first or the second provider call, with only the already-elapsed backoff
sleeps); three retryable failures exhaust the attempts and raise the
terminal failure whose message names the attempt count, after exactly 3
calls and sleeps of 1s then 2s; and in the rate-limit scenario (two
retryable failures then success) embed_texts succeeds after exactly 3
provider calls. -/
theorem embed_retry_policy :
    retryDelays = [1, 2, 4] ∧
    (∀ (oc : Nat → Except ProviderErr (List (List PyFloat)))
       (e : ProviderErr), oc 0 = .error e → isRetryableError e = false →
       embedWithRetry oc 3 = ⟨.raised e, 1, []⟩) ∧
    (∀ (oc : Nat → Except ProviderErr (List (List PyFloat)))
       (e0 e1 : ProviderErr),
       oc 0 = .error e0 → isRetryableError e0 = true →
       oc 1 = .error e1 → isRetryableError e1 = false →
       embedWithRetry oc 3 = ⟨.raised e1, 2, [1]⟩) ∧
    (∀ (oc : Nat → Except ProviderErr (List (List PyFloat)))
       (e0 e1 e2 : ProviderErr),
       oc 0 = .error e0 → isRetryableError e0 = true →
       oc 1 = .error e1 → isRetryableError e1 = true →
       oc 2 = .error e2 → isRetryableError e2 = true →
       embedWithRetry oc 3 = ⟨.terminal (exhaustedMsg 3 e2), 3, [1, 2]⟩ ∧
         containsSeq "3 attempts".toList (exhaustedMsg 3 e2) = true) ∧
    (∀ (oc : Nat → Except ProviderErr (List (List PyFloat)))
       (e0 e1 : ProviderErr) (vs : List (List PyFloat)) (t : List Char),
       oc 0 = .error e0 → isRetryableError e0 = true →
       oc 1 = .error e1 → isRetryableError e1 = true →
       oc 2 = .ok vs → t.isEmpty = false → (pyStrip t).isEmpty = false →
       (embedTexts 512 100 3 oc [t]).calls = 3 ∧
         (embedTexts 512 100 3 oc [t]).result =
           .ok (vs.map (processEmbedding 512))) := by
  refine ⟨rfl, ?_, ?_, ?_, ?_⟩
  · intro oc e h0 hr
    simp [embedWithRetry, retryAux, h0, hr]
  · intro oc e0 e1 h0 hr0 h1 hr1
    simp [embedWithRetry, retryAux, h0, hr0, h1, hr1, retryDelays]
  · intro oc e0 e1 e2 h0 hr0 h1 hr1 h2 hr2
    constructor
    · simp [embedWithRetry, retryAux, h0, hr0, h1, hr1, h2, hr2, retryDelays]
    · have h3 : (toString (3 : Nat)).toList = ['3'] := by decide
      simp only [exhaustedMsg, h3]
      apply containsSeq_append_left
      decide
  · intro oc e0 e1 vs t h0 hr0 h1 hr1 h2 hte htse
    have hval : validateAux 0 [t] = .ok [pyStrip t] := by
      simp [validateAux, hte, htse]
    have hbatch : chunkList 100 [pyStrip t] = [[pyStrip t]] := by
      simp [chunkList, chunkListAux]
    have hretry : retryAux (fun k => oc (0 + k)) 3 retryDelays 0 3 =
        ⟨.success vs, 3, [1, 2]⟩ := by
      simp [retryAux, h0, hr0, h1, hr1, h2, retryDelays]
    have hretry2 : retryAux (fun k => oc k) 3 retryDelays 0 3 =
        ⟨.success vs, 3, [1, 2]⟩ := by
      simpa using hretry
    constructor
    · simp [embedTexts, hval, hbatch, embedBatches, hretry, hretry2]
    · simp [embedTexts, hval, hbatch, embedBatches, hretry, hretry2]

/-- The rate-limit error of the C4 witness scenario. -/
def c4Err : ProviderErr :=
  { msg := "rate_limit_exceeded".toList, statusCode := none }

/-- The provider-outcome sequence of the C4 witness scenario: two
rate-limit failures, then a successful (empty) response. -/
def c4Oc : Nat → Except ProviderErr (List (List PyFloat)) :=
  fun n => if n < 2 then .error c4Err else .ok []

/-- Witness for C4 at the concrete scenario: the rate-limited call
sequence makes embed_texts succeed after exactly 3 provider calls. -/
theorem embed_retry_policy_witness :
    (embedTexts 512 100 3 c4Oc ["hello".toList]).calls = 3 ∧
      (embedTexts 512 100 3 c4Oc ["hello".toList]).result = .ok [] := by
  have h := embed_retry_policy.2.2.2.2 c4Oc c4Err c4Err
    [] "hello".toList (by rfl) (by decide) (by rfl) (by decide) (by rfl)
    (by decide) (by decide)
  simpa using h

/-! ### C6: algebraic properties of cosine_similarity -/

theorem dotList_cons (a b : ℝ) (s t : List ℝ) :
    dotList (a :: s) (b :: t) = a * b + dotList s t := by
  simp [dotList]

theorem dotList_self_nonneg (v : List ℝ) : 0 ≤ dotList v v := by
  induction v with
  | nil => simp [dotList]
  | cons a t ih =>
    rw [dotList_cons]
    nlinarith [sq_nonneg a]

theorem dotList_self_pos (v : List ℝ) (h : ∃ x ∈ v, x ≠ 0) :
    0 < dotList v v := by
  induction v with
  | nil => simp at h
  | cons a t ih =>
    rw [dotList_cons]
    rcases h with ⟨x, hx, hx0⟩
    rcases List.mem_cons.mp hx with rfl | hmem
    · have h1 := dotList_self_nonneg t
      have h2 : 0 < x * x := mul_self_pos.mpr hx0
      linarith
    · have h1 := ih ⟨x, hmem, hx0⟩
      nlinarith [sq_nonneg a]

theorem dotList_sq_le (a b : List ℝ) :
    (dotList a b) ^ 2 ≤ dotList a a * dotList b b := by
  induction a generalizing b with
  | nil =>
    simp [dotList]
  | cons x s ih =>
    cases b with
    | nil => simp [dotList]
    | cons y t =>
      rw [dotList_cons, dotList_cons, dotList_cons]
      have h := ih t
      have haa := dotList_self_nonneg s
      have hbb := dotList_self_nonneg t
      have h2 : 0 ≤ dotList s s * dotList t t - dotList s t ^ 2 := by
        nlinarith [h]
      rcases eq_or_lt_of_le hbb with hB0 | hBpos
      · have hS : dotList s t = 0 := by
          nlinarith [sq_nonneg (dotList s t)]
        rw [hS, ← hB0]
        nlinarith [sq_nonneg y, haa, sq_nonneg (x * y)]
      · nlinarith [sq_nonneg (x * dotList t t - y * dotList s t), h2, hBpos,
          mul_nonneg (sq_nonneg y) h2, mul_nonneg (le_of_lt hBpos) h2]

theorem dotList_neg_right (v : List ℝ) :
    dotList v (v.map (fun x => -x)) = -dotList v v := by
  induction v with
  | nil => simp [dotList]
  | cons a t ih =>
    simp only [List.map_cons]
    rw [dotList_cons, dotList_cons, ih]
    ring

theorem dotList_neg_self (v : List ℝ) :
    dotList (v.map (fun x => -x)) (v.map (fun x => -x)) = dotList v v := by
  induction v with
  | nil => simp [dotList]
  | cons a t ih =>
    simp only [List.map_cons]
    rw [dotList_cons, dotList_cons, ih]
    ring

theorem dotList_zero_left (n : Nat) (x : List ℝ) :
    dotList (List.replicate n 0) x = 0 := by
  induction n generalizing x with
  | zero => simp [dotList]
  | succ m ih =>
    cases x with
    | nil => simp [dotList]
    | cons b t =>
      rw [List.replicate_succ, dotList_cons, ih]
      ring

/-- Claim C6: cosine_similarity of a non-zero vector with itself is
exactly 1; with its negation exactly -1; the zero vector against anything
gives 0 (the zero-norm guard, no division by zero); and every value lies
in [-1, 1]. -/
theorem cosine_similarity_props :
    (∀ v : List ℝ, (∃ x ∈ v, x ≠ 0) → cosine_similarity v v = 1) ∧
    (∀ v : List ℝ, (∃ x ∈ v, x ≠ 0) →
      cosine_similarity v (v.map (fun x => -x)) = -1) ∧
    (∀ (n : Nat) (x : List ℝ),
      cosine_similarity (List.replicate n 0) x = 0) ∧
    (∀ a b : List ℝ,
      -1 ≤ cosine_similarity a b ∧ cosine_similarity a b ≤ 1) := by
  have hnorm_sq : ∀ v : List ℝ, normList v * normList v = dotList v v := by
    intro v
    exact Real.mul_self_sqrt (dotList_self_nonneg v)
  have hnorm_pos : ∀ v : List ℝ, (∃ x ∈ v, x ≠ 0) → 0 < normList v := by
    intro v hv
    exact Real.sqrt_pos.mpr (dotList_self_pos v hv)
  refine ⟨?_, ?_, ?_, ?_⟩
  · intro v hv
    have hp := hnorm_pos v hv
    have hne : ¬(normList v = 0 ∨ normList v = 0) := by
      intro hc
      rcases hc with hc | hc <;> exact absurd hc (ne_of_gt hp)
    simp only [cosine_similarity, hne, if_false]
    rw [hnorm_sq v]
    exact div_self (ne_of_gt (dotList_self_pos v hv))
  · intro v hv
    have hp := hnorm_pos v hv
    have hpn : 0 < normList (v.map (fun x => -x)) := by
      unfold normList
      rw [dotList_neg_self]
      exact Real.sqrt_pos.mpr (dotList_self_pos v hv)
    have hne : ¬(normList v = 0 ∨ normList (v.map (fun x => -x)) = 0) := by
      intro hc
      rcases hc with hc | hc
      · exact absurd hc (ne_of_gt hp)
      · exact absurd hc (ne_of_gt hpn)
    simp only [cosine_similarity, hne, if_false]
    have hnn : normList (v.map (fun x => -x)) = normList v := by
      unfold normList
      rw [dotList_neg_self]
    rw [hnn, dotList_neg_right, hnorm_sq v]
    rw [neg_div]
    rw [div_self (ne_of_gt (dotList_self_pos v hv))]
  · intro n x
    have hz : normList (List.replicate n 0) = 0 := by
      unfold normList
      rw [dotList_zero_left]
      exact Real.sqrt_zero
    simp [cosine_similarity, hz]
  · intro a b
    by_cases hz : normList a = 0 ∨ normList b = 0
    · simp only [cosine_similarity, hz, if_true]
      norm_num
    · simp only [cosine_similarity, hz, if_false]
      push_neg at hz
      have ha0 : 0 ≤ normList a := Real.sqrt_nonneg _
      have hb0 : 0 ≤ normList b := Real.sqrt_nonneg _
      have hap : 0 < normList a := lt_of_le_of_ne ha0 (Ne.symm hz.1)
      have hbp : 0 < normList b := lt_of_le_of_ne hb0 (Ne.symm hz.2)
      have hprod : 0 < normList a * normList b := mul_pos hap hbp
      have hcs : (dotList a b) ^ 2 ≤ (normList a * normList b) ^ 2 := by
        have h1 : (normList a * normList b) ^ 2 =
            dotList a a * dotList b b := by
          have := hnorm_sq a
          have := hnorm_sq b
          ring_nf
          nlinarith [hnorm_sq a, hnorm_sq b]
        rw [h1]
        exact dotList_sq_le a b
      constructor
      · rw [le_div_iff hprod]
        nlinarith [hcs, hprod]
      · rw [div_le_one hprod]
        nlinarith [hcs, hprod]

/-- Witness for C6 at a concrete vector: cosine_similarity([3,4],[3,4])
is exactly 1. -/
theorem cosine_similarity_props_witness :
    cosine_similarity [(3 : ℝ), 4] [(3 : ℝ), 4] = 1 :=
  cosine_similarity_props.1 [(3 : ℝ), 4] ⟨3, by simp, by norm_num⟩

/-! ### C8: chunk metadata invariants -/

/-- A splitter output on which the chunk_text repair pass fires. -/
def c8Splits : List (List Char) := ["this is one".toList, "more. tail".toList]

/-- Counterexample to claim C8: the first chunk starts lower-case, so
chunk_text rewrites its content to "this is one more." (17 characters),
but char_count is computed from the pre-repair variable and stays 11 -
the stored counts do not describe the final content. -/
theorem chunk_text_counts_stale :
    ((chunkTextModel c8Splits).map fun c => (c.content.length, c.char_count)) =
      [(17, 11), (10, 10)] ∧ (17 : Nat) ≠ 11 := by
  constructor
  · decide
  · decide

/-- Claim C8 as amended: for all three chunkers the chunk_index values
form the contiguous 0-based sequence and total_chunks is the output
length on every chunk; word_count and char_count describe the final
content for chunk_pdf and chunk_html, while for chunk_text they describe
the splitter-produced content at the chunk's index (which differs from
the final content exactly when the mid-sentence repair rewrites it). -/
theorem chunk_metadata_invariants :
    (∀ (meta : PdfMeta) (splits : List (List Char)),
      ((chunkPdf meta splits).map fun c => c.chunk_index) =
        List.range splits.length ∧
      ∀ c ∈ chunkPdf meta splits, c.total_chunks = splits.length ∧
        c.word_count = pyWordCount c.content ∧
        c.char_count = c.content.length) ∧
    (∀ (title desc url : List Char) (dom : List (List Char))
       (splits : List (List Char)),
      ((chunkHtml title desc url dom splits).map fun c => c.chunk_index) =
        List.range splits.length ∧
      ∀ c ∈ chunkHtml title desc url dom splits,
        c.total_chunks = splits.length ∧
        c.word_count = pyWordCount c.content ∧
        c.char_count = c.content.length) ∧
    (∀ splits : List (List Char),
      ((chunkTextModel splits).map fun c => c.chunk_index) =
        List.range splits.length ∧
      ∀ c ∈ chunkTextModel splits, c.total_chunks = splits.length ∧
        c.word_count = pyWordCount (splits.getD c.chunk_index []) ∧
        c.char_count = (splits.getD c.chunk_index []).length) := by
  refine ⟨?_, ?_, ?_⟩
  · intro meta splits
    constructor
    · rw [chunkPdf, List.map_map]
      have : ((fun c => c.chunk_index) ∘ fun p =>
          ({ content := p.2, is_table := detectTable p.2,
             hierarchy_path := extractHierarchyPath meta,
             source_page_ref := (toString (meta.page_number + 1)).toList,
             source_type := "pdf".toList, chunk_index := p.1,
             total_chunks := splits.length, word_count := pyWordCount p.2,
             char_count := p.2.length } : PdfChunk)) =
          (fun p : Nat × List Char => p.1) := rfl
      rw [this]
      exact List.enum_map_fst splits
    · intro c hc
      obtain ⟨p, _hp, rfl⟩ := List.mem_map.mp hc
      exact ⟨rfl, rfl, rfl⟩
  · intro title desc url dom splits
    constructor
    · rw [chunkHtml, List.map_map]
      have : ((fun c => c.chunk_index) ∘ fun p =>
          (let cleaned := cleanHtmlContent p.2
           { content := cleaned, hierarchy_path := dom,
             source_type := "html".toList, source_url := url,
             chunk_index := p.1, total_chunks := splits.length,
             title := title, description := desc,
             word_count := pyWordCount cleaned,
             char_count := cleaned.length } : HtmlChunk)) =
          (fun p : Nat × List Char => p.1) := rfl
      rw [this]
      exact List.enum_map_fst splits
    · intro c hc
      obtain ⟨p, _hp, rfl⟩ := List.mem_map.mp hc
      exact ⟨rfl, rfl, rfl⟩
  · intro splits
    constructor
    · rw [chunkTextModel, List.map_map]
      have : ((fun c => c.chunk_index) ∘ fun idx =>
          (let content := splits.getD idx []
           let finalContent :=
             if hasMidSentenceSplit content && decide (idx < splits.length - 1)
             then ensureSentenceBoundary
               (content ++ [' '] ++ splits.getD (idx + 1) [])
             else content
           { content := finalContent, source_type := "text".toList,
             chunk_index := idx, total_chunks := splits.length,
             word_count := pyWordCount content,
             char_count := content.length } : TxtChunk)) =
          (fun idx : Nat => idx) := rfl
      rw [this]
      simp
    · intro c hc
      obtain ⟨i, _hi, rfl⟩ := List.mem_map.mp hc
      exact ⟨rfl, rfl, rfl⟩

/-- The single chunk produced for the witness input ["ok."]. -/
def c8wChunk : TxtChunk :=
  { content := "ok.".toList, source_type := "text".toList, chunk_index := 0,
    total_chunks := 1, word_count := 1, char_count := 3 }

/-- Witness for C8 at the concrete input: the one-chunk output has index
sequence [0], and the member instance carries the stated counts. -/
theorem chunk_metadata_invariants_witness :
    ((chunkTextModel ["ok.".toList]).map fun c => c.chunk_index) =
        List.range 1 ∧
      (c8wChunk.total_chunks = 1 ∧
        c8wChunk.word_count = pyWordCount (["ok.".toList].getD c8wChunk.chunk_index []) ∧
        c8wChunk.char_count = (["ok.".toList].getD c8wChunk.chunk_index []).length) :=
  ⟨(chunk_metadata_invariants.2.2 ["ok.".toList]).1,
    by
      have h := (chunk_metadata_invariants.2.2 ["ok.".toList]).2 c8wChunk
        (by decide)
      simpa using h⟩

/-! ### C9: idempotence of the chunk store step -/

/-- The identity key the spec prescribes for chunk rows. -/
def chunkKey (r : StoredChunk) : List Char × Nat := (r.document_id, r.chunk_index)

/-- Everything about a row except the regenerated surrogate id. -/
def chunkVal (r : StoredChunk) : List Char × List Char × Nat × List Char × List ℚ :=
  (r.document_id, r.tenant_id, r.chunk_index, r.content, r.embedding)

/-- The key is recoverable from the id-free value. -/
def keyFromVal (v : List Char × List Char × Nat × List Char × List ℚ) :
    List Char × Nat := (v.1, v.2.2.1)

theorem map_chunkKey_eq_vals (s : List StoredChunk) :
    s.map chunkKey = (s.map chunkVal).map keyFromVal := by
  rw [List.map_map]
  rfl

theorem upsert_cond_iff (r c : StoredChunk) :
    (r.document_id = c.document_id ∧ r.chunk_index = c.chunk_index) ↔
      chunkKey r = chunkKey c := by
  simp [chunkKey, Prod.ext_iff]

theorem upsert_hit_iff (store : List StoredChunk) (c : StoredChunk) :
    (store.any fun r =>
      decide (r.document_id = c.document_id) &&
        decide (r.chunk_index = c.chunk_index)) = true ↔
      chunkKey c ∈ store.map chunkKey := by
  rw [List.any_eq_true]
  constructor
  · rintro ⟨r, hr, hb⟩
    simp only [Bool.and_eq_true, decide_eq_true_eq] at hb
    have : chunkKey c = chunkKey r := ((upsert_cond_iff r c).mp hb).symm
    rw [this]
    exact List.mem_map_of_mem chunkKey hr
  · intro hmem
    obtain ⟨r, hr, heq⟩ := List.mem_map.mp hmem
    refine ⟨r, hr, ?_⟩
    simp only [Bool.and_eq_true, decide_eq_true_eq]
    exact (upsert_cond_iff r c).mpr heq

theorem upsertChunk_mem_val (s : List StoredChunk) (q r : StoredChunk)
    (hr : r ∈ upsertChunk s q) : r ∈ s ∨ r = q := by
  unfold upsertChunk at hr
  split at hr
  · obtain ⟨r0, hr0, rfl⟩ := List.mem_map.mp hr
    by_cases hc : r0.document_id = q.document_id ∧ r0.chunk_index = q.chunk_index
    · rw [if_pos hc]
      exact Or.inr rfl
    · rw [if_neg hc]
      exact Or.inl hr0
  · rcases List.mem_append.mp hr with h | h
    · exact Or.inl h
    · exact Or.inr (List.mem_singleton.mp h)

theorem upsertChunk_sets_key (s : List StoredChunk) (q : StoredChunk) :
    ∀ r ∈ upsertChunk s q, chunkKey r = chunkKey q → r = q := by
  intro r hr hk
  unfold upsertChunk at hr
  split at hr
  · obtain ⟨r0, _hr0, rfl⟩ := List.mem_map.mp hr
    by_cases hc : r0.document_id = q.document_id ∧ r0.chunk_index = q.chunk_index
    · rw [if_pos hc]
    · rw [if_neg hc] at hk ⊢
      exact absurd ((upsert_cond_iff r0 q).mpr hk) hc
  · rename_i hany
    rcases List.mem_append.mp hr with h | h
    · exfalso
      have : chunkKey q ∈ s.map chunkKey := by
        rw [← hk]
        exact List.mem_map_of_mem chunkKey h
      exact absurd ((upsert_hit_iff s q).mpr this) hany
    · exact List.mem_singleton.mp h

theorem upsertChunk_key_mem (s : List StoredChunk) (q : StoredChunk) :
    chunkKey q ∈ (upsertChunk s q).map chunkKey := by
  unfold upsertChunk
  split
  · rename_i hany
    obtain ⟨r0, hr0, hb⟩ := List.any_eq_true.mp hany
    simp only [Bool.and_eq_true, decide_eq_true_eq] at hb
    have hmem : (if r0.document_id = q.document_id ∧
        r0.chunk_index = q.chunk_index then q else r0) ∈
        s.map fun r => if r.document_id = q.document_id ∧
          r.chunk_index = q.chunk_index then q else r :=
      List.mem_map_of_mem _ hr0
    rw [if_pos hb] at hmem
    exact List.mem_map_of_mem chunkKey hmem
  · simp

theorem upsertChunk_keys_cases (s : List StoredChunk) (q : StoredChunk) :
    (upsertChunk s q).map chunkKey = s.map chunkKey ∨
      (upsertChunk s q).map chunkKey = s.map chunkKey ++ [chunkKey q] := by
  unfold upsertChunk
  split
  · left
    rw [List.map_map]
    apply List.map_congr_left
    intro r _hr
    by_cases hc : r.document_id = q.document_id ∧ r.chunk_index = q.chunk_index
    · simp only [Function.comp_apply, if_pos hc]
      exact ((upsert_cond_iff r q).mp hc).symm
    · simp only [Function.comp_apply, if_neg hc]
  · right
    simp

theorem upsertChunk_hit_noop (s : List StoredChunk) (q : StoredChunk)
    (hmem : chunkKey q ∈ s.map chunkKey)
    (hval : ∀ r ∈ s, chunkKey r = chunkKey q → chunkVal r = chunkVal q) :
    (upsertChunk s q).map chunkVal = s.map chunkVal ∧
      (upsertChunk s q).length = s.length := by
  unfold upsertChunk
  rw [if_pos ((upsert_hit_iff s q).mpr hmem)]
  constructor
  · rw [List.map_map]
    apply List.map_congr_left
    intro r hr
    by_cases hc : r.document_id = q.document_id ∧ r.chunk_index = q.chunk_index
    · simp only [Function.comp_apply, if_pos hc]
      exact (hval r hr ((upsert_cond_iff r q).mp hc)).symm
    · simp only [Function.comp_apply, if_neg hc]
  · simp

theorem foldl_upsert_preserves_key (K : List Char × Nat)
    (v : List Char × List Char × Nat × List Char × List ℚ) :
    ∀ (qs s : List StoredChunk), (∀ q ∈ qs, chunkKey q ≠ K) →
    K ∈ s.map chunkKey → (∀ r ∈ s, chunkKey r = K → chunkVal r = v) →
    K ∈ (qs.foldl upsertChunk s).map chunkKey ∧
      (∀ r ∈ qs.foldl upsertChunk s, chunkKey r = K → chunkVal r = v) := by
  intro qs
  induction qs with
  | nil =>
    intro s _ hK hv
    exact ⟨hK, hv⟩
  | cons q rest ih =>
    intro s hne hK hv
    rw [List.foldl_cons]
    apply ih
    · intro x hx
      exact hne x (List.mem_cons_of_mem q hx)
    · rcases upsertChunk_keys_cases s q with h | h
      · rw [h]; exact hK
      · rw [h]; exact List.mem_append_left _ hK
    · intro r hr hk
      rcases upsertChunk_mem_val s q r hr with h | rfl
      · exact hv r h hk
      · exact absurd hk (hne r (List.mem_cons_self r rest))

theorem foldl_upsert_establishes :
    ∀ (ps : List StoredChunk), (ps.map chunkKey).Nodup →
    ∀ (s : List StoredChunk) (p : StoredChunk), p ∈ ps →
    chunkKey p ∈ ((ps.foldl upsertChunk s).map chunkKey) ∧
      (∀ r ∈ ps.foldl upsertChunk s, chunkKey r = chunkKey p →
        chunkVal r = chunkVal p) := by
  intro ps
  induction ps with
  | nil =>
    intro _ s p hp
    simp at hp
  | cons a rest ih =>
    intro hnd s p hp
    rw [List.map_cons, List.nodup_cons] at hnd
    rcases List.mem_cons.mp hp with rfl | hmem
    · rw [List.foldl_cons]
      apply foldl_upsert_preserves_key (chunkKey p) (chunkVal p) rest
        (upsertChunk s p)
      · intro q hq hk
        exact hnd.1 (hk ▸ List.mem_map_of_mem chunkKey hq)
      · exact upsertChunk_key_mem s p
      · intro r hr hk
        rw [upsertChunk_sets_key s p r hr hk]
    · rw [List.foldl_cons]
      exact ih hnd.2 (upsertChunk s a) p hmem

theorem foldl_upsert_noop :
    ∀ (qs s : List StoredChunk),
    (∀ q ∈ qs, chunkKey q ∈ s.map chunkKey ∧
      (∀ r ∈ s, chunkKey r = chunkKey q → chunkVal r = chunkVal q)) →
    (qs.foldl upsertChunk s).map chunkVal = s.map chunkVal ∧
      (qs.foldl upsertChunk s).length = s.length := by
  intro qs
  induction qs with
  | nil =>
    intro s _
    exact ⟨rfl, rfl⟩
  | cons q rest ih =>
    intro s h
    have hq := h q (List.mem_cons_self q rest)
    have hu := upsertChunk_hit_noop s q hq.1 hq.2
    have hkeys : (upsertChunk s q).map chunkKey = s.map chunkKey := by
      rw [map_chunkKey_eq_vals, hu.1, ← map_chunkKey_eq_vals]
    rw [List.foldl_cons]
    have hrest : ∀ x ∈ rest, chunkKey x ∈ (upsertChunk s q).map chunkKey ∧
        (∀ r ∈ upsertChunk s q, chunkKey r = chunkKey x →
          chunkVal r = chunkVal x) := by
      intro x hx
      have hxs := h x (List.mem_cons_of_mem q hx)
      refine ⟨by rw [hkeys]; exact hxs.1, ?_⟩
      intro r hr hk
      rcases upsertChunk_mem_val s q r hr with hmem | rfl
      · exact hxs.2 r hmem hk
      · -- the freshly written q has the same key as x, so both carry
        -- the value every row at that key already had
        obtain ⟨r0, hr0, hkr0⟩ := List.mem_map.mp (hq.1)
        have hv0q : chunkVal r0 = chunkVal r := hq.2 r0 hr0 hkr0
        have hv0x : chunkVal r0 = chunkVal x := hxs.2 r0 hr0 (hkr0.trans hk)
        rw [← hv0q, hv0x]
    have := ih (upsertChunk s q) hrest
    exact ⟨by rw [this.1, hu.1], by rw [this.2, hu.2]⟩

/-- Keys of a prepared batch: (document_id, enumeration index). -/
theorem prepareChunks_keys (idGen : Nat → Nat) (docId tenant : List Char)
    (cs : List (List Char × List ℚ)) :
    (prepareChunks idGen docId tenant cs).map chunkKey =
      (List.range cs.length).map (fun i => (docId, i)) := by
  unfold prepareChunks
  rw [List.map_map]
  have : (chunkKey ∘ fun p : Nat × (List Char × List ℚ) =>
      (⟨idGen p.1, docId, tenant, p.1, p.2.1, p.2.2⟩ : StoredChunk)) =
      ((fun i => (docId, i)) ∘ Prod.fst) := rfl
  rw [this, ← List.map_map, List.enum_map_fst]

theorem prepareChunks_keys_nodup (idGen : Nat → Nat) (docId tenant : List Char)
    (cs : List (List Char × List ℚ)) :
    ((prepareChunks idGen docId tenant cs).map chunkKey).Nodup := by
  rw [prepareChunks_keys]
  refine List.Nodup.map ?_ (List.nodup_range _)
  intro a b hab
  exact congrArg Prod.snd hab

/-- Claim C9: running _store_chunks a second time for the same
(document_id, chunk_index) set leaves the stored chunk set unchanged
(up to the regenerated surrogate row ids, which carry no identity under
the spec's upsert keying): the id-free row values, the key sequence and
the row count after the second run all equal those after the first run;
in particular no duplicate chunk rows are created. -/
theorem store_chunks_idempotent :
    ∀ (s0 : List StoredChunk) (idG1 idG2 : Nat → Nat)
      (docId tenant : List Char) (cs : List (List Char × List ℚ)),
    (storeChunks (storeChunks s0 idG1 docId tenant cs) idG2 docId tenant cs).map
        chunkVal = (storeChunks s0 idG1 docId tenant cs).map chunkVal ∧
    (storeChunks (storeChunks s0 idG1 docId tenant cs) idG2 docId tenant cs).map
        chunkKey = (storeChunks s0 idG1 docId tenant cs).map chunkKey ∧
    (storeChunks (storeChunks s0 idG1 docId tenant cs) idG2 docId tenant cs).length
        = (storeChunks s0 idG1 docId tenant cs).length := by
  intro s0 idG1 idG2 docId tenant cs
  simp only [storeChunks]
  have hmain := foldl_upsert_noop (prepareChunks idG2 docId tenant cs)
    (storeChunks s0 idG1 docId tenant cs) ?_
  · simp only [storeChunks] at hmain
    refine ⟨hmain.1, ?_, hmain.2⟩
    rw [map_chunkKey_eq_vals, hmain.1, ← map_chunkKey_eq_vals]
  · intro q hq
    obtain ⟨p2, hp2, rfl⟩ := List.mem_map.mp hq
    have hp1 : (⟨idG1 p2.1, docId, tenant, p2.1, p2.2.1, p2.2.2⟩ : StoredChunk) ∈
        prepareChunks idG1 docId tenant cs :=
      List.mem_map_of_mem _ hp2
    have hest := foldl_upsert_establishes (prepareChunks idG1 docId tenant cs)
      (prepareChunks_keys_nodup idG1 docId tenant cs) s0 _ hp1
    constructor
    · exact hest.1
    · intro r hr hk
      exact hest.2 r hr hk

end RagSpec
